import Mathlib

/-!
Verification of the analytical core of `BI_Sales.py`, a sales business
intelligence dashboard.  Each definition below is a shallow embedding of a
piece of the Python source (referenced by line number); theorems check the
natural-language specification against these definitions.  Numeric columns
are modelled by `ℚ`; the sample standard deviation of the XYZ stage, which
takes a square root, lives in `ℝ`.
-/

namespace BISales

/-! ## Generic grouping helpers

`df.groupby(key)[metric].sum()` over a list of `(key, metric)` pairs:
one output row per distinct key, carrying the sum of the metric over the
rows with that key.  (pandas orders groups by key; every use below is
followed by an explicit re-sort or is order-independent, so we keep the
first-occurrence order produced by `dedup`.)  NaN keys are dropped by
pandas before this point, so rows here always carry a key. -/

def sumFor {α : Type} [DecidableEq α] (k : α) (rows : List (α × ℚ)) : ℚ :=
  ((rows.filter (fun p => decide (p.1 = k))).map Prod.snd).sum

def groupSum {α : Type} [DecidableEq α] (rows : List (α × ℚ)) : List (α × ℚ) :=
  ((rows.map Prod.fst).dedup).map (fun k => (k, sumFor k rows))

/-- Mean of a list of rationals, `Series.mean()`.  (Empty input gives `0/0 = 0`;
    every call site below guards against emptiness.) -/
def listMean (xs : List ℚ) : ℚ := xs.sum / (xs.length : ℚ)

/-! ## Time-series training window (lines 1161–1193)

`monthly` aggregates the metric to per-month sums (`groupby(...to_period('M'))`,
lines 1161–1168); months are modelled as integers.  Lines 1188–1189 swap the
user's `(training_start, training_end)` pair when `training_start >
training_end`; lines 1191–1193 keep the monthly rows inside the closed
window. -/

def monthlyAgg (rows : List (ℤ × ℚ)) : List (ℤ × ℚ) := groupSum rows

/-- Lines 1188–1189: `if training_start > training_end: swap`. -/
def swapWindow (s e : ℤ) : ℤ × ℤ := if e < s then (e, s) else (s, e)

/-- Lines 1191–1193: rows of `monthly` with `MonthStart` in the closed window. -/
def monthlyTraining (rows : List (ℤ × ℚ)) (s e : ℤ) : List (ℤ × ℚ) :=
  (monthlyAgg rows).filter
    (fun p => decide ((swapWindow s e).1 ≤ p.1 ∧ p.1 ≤ (swapWindow s e).2))

/-! ## Forecast gate (lines 1255–1388)

The forecast block is guarded by `if ExponentialSmoothing is None: st.info(...)
elif len(monthly_training) >= 12: <fit and forecast> else: st.info("Need at
least 12 months...")`. -/

inductive ForecastOutcome : Type
  | forecast
  | missingDependency
  | needTwelveMonths
deriving DecidableEq

def forecastGate (smAvailable : Bool) (trainingLen : ℕ) : ForecastOutcome :=
  if smAvailable = false then ForecastOutcome.missingDependency
  else if 12 ≤ trainingLen then ForecastOutcome.forecast
  else ForecastOutcome.needTwelveMonths

/-- Lines 1276–1279: `if manual_growth_pct != 0.0: forecast = forecast *
    (1 + manual_growth_pct / 100)`, applied pointwise to the already fitted
    forecast series. -/
def applyGrowth (pct : ℚ) (forecast : List ℚ) : List ℚ :=
  if pct ≠ 0 then forecast.map (fun x => x * (1 + pct / 100)) else forecast

/-! ## ABC classification (lines 990–1012)

`abc_source` groups the filtered view by item number, sums the active metric
(lines 990–995), keeps items whose sum is `> 0` (line 996) and sorts the
result descending by that sum (`sort_values(..., ascending=False)`,
line 994).  Line 1003 turns the running cumulative sum into a percentage of
the grand total taken over the retained items, and lines 1005–1012 label it. -/

/-- Descending order on the grouped `(item, metric_total)` rows. -/
def valueGE (a b : String × ℚ) : Prop := b.2 ≤ a.2

instance : DecidableRel valueGE := fun a b => inferInstanceAs (Decidable (b.2 ≤ a.2))

instance : IsTotal (String × ℚ) valueGE := ⟨fun a b => le_total b.2 a.2⟩

instance : IsTrans (String × ℚ) valueGE := ⟨fun _ _ _ h1 h2 => le_trans h2 h1⟩

def abc_source (rows : List (String × ℚ)) : List (String × ℚ) :=
  List.insertionSort valueGE ((groupSum rows).filter (fun p => decide (0 < p.2)))

/-- Line 1003: running cumulative sums (`Series.cumsum()`), starting from `acc`. -/
def cumFrom (acc : ℚ) : List ℚ → List ℚ
  | [] => []
  | x :: xs => (acc + x) :: cumFrom (acc + x) xs

/-- Lines 1005–1010: `classify_abc`. -/
def classify_abc (pct : ℚ) : String :=
  if pct ≤ 80 then "A" else if pct ≤ 95 then "B" else "C"

/-- Lines 990–1012 end to end: each retained item with its metric total, its
    cumulative percentage of the grand total, and its ABC label. -/
def abcTable (rows : List (String × ℚ)) : List (String × ℚ × ℚ × String) :=
  let src := abc_source rows
  let total := (src.map Prod.snd).sum
  (src.zip (cumFrom 0 (src.map Prod.snd))).map
    (fun p => (p.1.1, p.1.2, p.2 / total * 100, classify_abc (p.2 / total * 100)))

/-! ## XYZ classification (lines 1024–1044)

Per item the code collects the item's monthly metric sums and computes
`mean` and `std` (pandas sample standard deviation, `ddof=1`; `NaN` for a
single observation, replaced by `0` via `fillna(0)`, line 1030), then
`cv = std / mean if mean else inf` (lines 1031–1034) and classifies
(lines 1036–1043).  The square root forces `ℝ` here; `none` stands for the
IEEE infinity produced when the mean is zero, for which both comparisons
`cv <= 0.5` and `cv <= 1.0` are false, so `classify_xyz` returns `"Z"`. -/

/-- The sample variance `Σ (x - mean)² / (n - 1)` of a list of monthly sums. -/
def sampleVar (xs : List ℚ) : ℚ :=
  ((xs.map (fun x => (x - listMean xs) ^ 2)).sum) / ((xs.length : ℚ) - 1)

/-- `std_metric` after `fillna(0)` (lines 1026–1030): sample standard
    deviation, with the single-observation `NaN` replaced by `0`. -/
noncomputable def std_metric (xs : List ℚ) : ℝ :=
  if xs.length ≤ 1 then 0 else Real.sqrt (sampleVar xs)

/-- Lines 1031–1034: `cv = std / mean` when the mean is non-zero, `inf`
    (modelled `none`) otherwise. -/
noncomputable def cv_metric (xs : List ℚ) : Option ℝ :=
  if listMean xs = 0 then none else some (std_metric xs / ((listMean xs : ℚ) : ℝ))

open scoped Classical in
/-- Lines 1036–1043: `classify_xyz`; `none` (infinity) fails both bounds. -/
noncomputable def classify_xyz : Option ℝ → String
  | none => "Z"
  | some c => if c ≤ 1 / 2 then "X" else if c ≤ 1 then "Y" else "Z"

/-! ## Filter engine (lines 369–483)

Each sidebar stage narrows `df_view` in a fixed order: brand, category,
region, sales channel (class code), family, item number, date range.  A
multi-select stage filters only when the column exists and the selection is
non-empty (`if selected_brands:` — an empty Python list is falsy); the
single-choice stages filter when a value other than `"All"` was chosen;
the date stage keeps rows whose (non-NaT) date lies in the closed range.
`isin` and `==` are false on a missing (NaN) cell, so such rows drop out. -/

structure Row : Type where
  brand : Option String
  category : Option String
  region : Option String
  classCode : Option String
  family : Option String
  itemNumber : Option String
  dateDt : Option ℤ
deriving DecidableEq

/-- `Series.isin(sel)`: false on a missing cell. -/
def inSel (sel : List String) : Option String → Bool
  | some v => sel.contains v
  | none => false

/-- `Series == v`: false on a missing cell. -/
def eqSel (v : String) : Option String → Bool
  | some w => w = v
  | none => false

/-- Lines 369–374. -/
def brandStage (hasCol : Bool) (sel : List String) (rows : List Row) : List Row :=
  if hasCol then
    (if sel ≠ [] then rows.filter (fun r => inSel sel r.brand) else rows)
  else rows

/-- Lines 376–382. -/
def categoryStage (hasCol : Bool) (sel : List String) (rows : List Row) : List Row :=
  if hasCol then
    (if sel ≠ [] then rows.filter (fun r => inSel sel r.category) else rows)
  else rows

/-- Lines 384–390. -/
def regionStage (hasCol : Bool) (sel : List String) (rows : List Row) : List Row :=
  if hasCol then
    (if sel ≠ [] then rows.filter (fun r => inSel sel r.region) else rows)
  else rows

/-- Lines 392–398. -/
def channelStage (hasCol : Bool) (sel : List String) (rows : List Row) : List Row :=
  if hasCol then
    (if sel ≠ [] then rows.filter (fun r => inSel sel r.classCode) else rows)
  else rows

/-- Lines 400–406: `selected_family != "All"` modelled as `some f`. -/
def familyStage (hasCol : Bool) (sel : Option String) (rows : List Row) : List Row :=
  if hasCol then
    (match sel with
     | some f => rows.filter (fun r => eqSel f r.family)
     | none => rows)
  else rows

/-- Lines 409–467: the item stage after the search/display resolution; a
    concrete chosen item number is `some v`, `"All"` is `none`. -/
def itemStage (hasCol : Bool) (sel : Option String) (rows : List Row) : List Row :=
  if hasCol then
    (match sel with
     | some v => rows.filter (fun r => eqSel v r.itemNumber)
     | none => rows)
  else rows

/-- Lines 469–483: `between(start, end, inclusive='both')`; applied only when a
    usable date column exists and the widget returned a two-date range. -/
def dateStage (applied : Bool) (s e : ℤ) (rows : List Row) : List Row :=
  if applied then
    rows.filter (fun r =>
      match r.dateDt with
      | some d => decide (s ≤ d ∧ d ≤ e)
      | none => false)
  else rows

/-- The user's filter predicates plus the column-availability flags. -/
structure FilterState : Type where
  hasBrand : Bool
  selBrands : List String
  hasCategory : Bool
  selCategories : List String
  hasRegion : Bool
  selRegions : List String
  hasClassCode : Bool
  selClassCodes : List String
  hasFamily : Bool
  selFamily : Option String
  hasItem : Bool
  selItem : Option String
  dateApplied : Bool
  dateStart : ℤ
  dateEnd : ℤ

/-- Lines 369–483: the stages applied to the merged table in source order. -/
def df_view (fs : FilterState) (merged : List Row) : List Row :=
  dateStage fs.dateApplied fs.dateStart fs.dateEnd
    (itemStage fs.hasItem fs.selItem
      (familyStage fs.hasFamily fs.selFamily
        (channelStage fs.hasClassCode fs.selClassCodes
          (regionStage fs.hasRegion fs.selRegions
            (categoryStage fs.hasCategory fs.selCategories
              (brandStage fs.hasBrand fs.selBrands merged))))))

/-! ## Seasonal index (lines 1214–1228)

`seasonal_summary` groups the dated rows by calendar month-of-year and takes
the row-level mean of the metric per month (lines 1216–1221); the overall
mean of those per-month averages divides each average to give the seasonal
index (lines 1225–1228); the division is guarded by `overall_mean != 0`. -/

def monthsPresent (rows : List (ℕ × ℚ)) : List ℕ := (rows.map Prod.fst).dedup

def meanFor (m : ℕ) (rows : List (ℕ × ℚ)) : ℚ :=
  listMean ((rows.filter (fun p => decide (p.1 = m))).map Prod.snd)

/-- Lines 1216–1221: `groupby('MonthNum')[metric_col].mean()`. -/
def seasonal_summary (rows : List (ℕ × ℚ)) : List (ℕ × ℚ) :=
  (monthsPresent rows).map (fun m => (m, meanFor m rows))

/-- Line 1225: `seasonal_summary['avg_metric'].mean()`. -/
def overall_mean (rows : List (ℕ × ℚ)) : ℚ :=
  listMean ((seasonal_summary rows).map Prod.snd)

/-- Line 1228: `SeasonalIndex = avg_metric / overall_mean`. -/
def seasonalIndex (rows : List (ℕ × ℚ)) : List (ℕ × ℚ) :=
  (seasonal_summary rows).map (fun p => (p.1, p.2 / overall_mean rows))

/-! ## Top-level gating of the analytics section (lines 340–346, 489–497)

In the source, line 343 reads `if 'sold_amount' in df_view.columns:` at
column 0, and every later line of the file (346–1392: metric selection,
filters, KPI cards, rollups, ABC-XYZ, trend, seasonal index, forecast) is
indented under it.  `analyticsSectionRuns` captures that gate.  The KPI
fallback of lines 491–496 (`sold_amount`, else `sales`, else `0`) is
embedded as `total_sales`. -/

structure MergedCols : Type where
  qty_soldx : Bool
  sold_amount : Bool
  sales : Bool
  qty_returnedx : Bool
  total_disc : Bool
deriving DecidableEq

/-- Line 343: the guard under which lines 346–1392 execute. -/
def analyticsSectionRuns (c : MergedCols) : Bool := c.sold_amount

/-- Lines 491–496: `total_sales` with its column fallbacks, given the sums of
    the `sold_amount` and `sales` columns of the filtered view. -/
def total_sales (c : MergedCols) (soldAmountSum salesSum : ℚ) : ℚ :=
  if c.sold_amount then soldAmountSum
  else if c.sales then salesSum
  else 0

/-! # Theorems -/

/-- C5: a manual growth override of 0 leaves every forecast point identical to
the unscaled projection; any override percentage `pct` multiplies every
forecast point uniformly by exactly `1 + pct / 100` after fitting (the series
is only mapped, never re-fitted); in particular `+10%` scales every point by
exactly `11 / 10 = 1.10`. -/
theorem C5_growth_override (pct : ℚ) (f : List ℚ) :
    applyGrowth 0 f = f ∧
    applyGrowth pct f = f.map (fun x => x * (1 + pct / 100)) ∧
    applyGrowth 10 f = f.map (fun x => x * (11 / 10)) := by
  refine ⟨by simp [applyGrowth], ?_, ?_⟩
  · by_cases h : pct = 0
    · subst h; simp [applyGrowth]
    · simp [applyGrowth, h]
  · have h10 : (1 : ℚ) + 10 / 100 = 11 / 10 := by norm_num
    simp [applyGrowth, h10]

/-- C6: the training window is normalised by silently swapping a
`start > end` pair (lines 1188–1189), so the window bounds, the training rows
and the forecast gate are all invariant under exchanging the two dates; no
error path exists, the swap being a total function. -/
theorem C6_window_swap (rows : List (ℤ × ℚ)) (s e : ℤ) (sm : Bool) :
    swapWindow s e = swapWindow e s ∧
    monthlyTraining rows s e = monthlyTraining rows e s ∧
    forecastGate sm (monthlyTraining rows s e).length
      = forecastGate sm (monthlyTraining rows e s).length := by
  have hs : swapWindow s e = swapWindow e s := by
    unfold swapWindow
    rcases lt_trichotomy s e with h | h | h
    · rw [if_neg (by omega), if_pos h]
    · subst h; rfl
    · rw [if_pos h, if_neg (by omega)]
  have hmt : monthlyTraining rows s e = monthlyTraining rows e s := by
    unfold monthlyTraining
    rw [hs]
  exact ⟨hs, hmt, by rw [hmt]⟩

/-- C4: the rows of `monthly_training` are distinct months (the monthly
aggregation is keyed by month), the forecast is produced exactly when the
dependency is available and the training window holds at least 12 of them,
any window with fewer than 12 distinct months yields the explanatory
"need at least 12 months" message instead, and in particular an 11-month
window never yields forecast output. -/
theorem C4_twelve_month_gate (rows : List (ℤ × ℚ)) (s e : ℤ) (sm : Bool) :
    ((monthlyTraining rows s e).map Prod.fst).Nodup ∧
    (forecastGate sm (monthlyTraining rows s e).length = ForecastOutcome.forecast
      ↔ sm = true ∧ 12 ≤ (monthlyTraining rows s e).length) ∧
    ((monthlyTraining rows s e).length < 12 →
      forecastGate true (monthlyTraining rows s e).length
        = ForecastOutcome.needTwelveMonths) ∧
    forecastGate true 11 = ForecastOutcome.needTwelveMonths := by
  refine ⟨?_, ?_, ?_, by decide⟩
  · have hkeys : (monthlyAgg rows).map Prod.fst = (rows.map Prod.fst).dedup := by
      simp [monthlyAgg, groupSum, List.map_map, Function.comp_def]
    have hsub : (monthlyTraining rows s e).Sublist (monthlyAgg rows) :=
      List.filter_sublist _
    have hmapsub : ((monthlyTraining rows s e).map Prod.fst).Sublist
        ((monthlyAgg rows).map Prod.fst) := hsub.map Prod.fst
    exact (hmapsub.nodup (hkeys ▸ (rows.map Prod.fst).nodup_dedup))
  · cases sm with
    | false => simp [forecastGate]
    | true =>
        by_cases h : 12 ≤ (monthlyTraining rows s e).length
        · simp [forecastGate, h]
        · simp [forecastGate, h]
  · intro h
    have h12 : ¬ 12 ≤ (monthlyTraining rows s e).length := by omega
    simp [forecastGate, h12]

/-- Witness for C4 at the empty dataset: the training window holds 0 < 12
distinct months and the gate produces the explanatory message. -/
theorem C4_twelve_month_gate_witness :
    (monthlyTraining [] 0 0).length < 12 ∧
    forecastGate true (monthlyTraining [] 0 0).length
      = ForecastOutcome.needTwelveMonths :=
  ⟨by decide, (C4_twelve_month_gate [] 0 0 true).2.2.1 (by decide)⟩

/-- C3: the source nests the whole KPI/analytics section (lines 346–1392)
under the gate `if 'sold_amount' in df_view.columns:` of line 343, so when
the `sold_amount` column is absent the section never runs — even though the
fallback of lines 491–496 would have produced `total_sales` from the `sales`
column, or `0` with no value column at all, exactly as the specification
describes. -/
theorem C3_sold_amount_gate (s1 s2 : ℚ) :
    analyticsSectionRuns ⟨true, false, true, true, true⟩ = false ∧
    analyticsSectionRuns ⟨true, false, false, true, true⟩ = false ∧
    total_sales ⟨true, false, true, true, true⟩ s1 s2 = s2 ∧
    total_sales ⟨true, false, false, true, true⟩ s1 s2 = 0 ∧
    (∀ c : MergedCols, analyticsSectionRuns c = c.sold_amount) := by
  refine ⟨rfl, rfl, ?_, ?_, fun c => rfl⟩ <;> simp [total_sales]

theorem brandStage_sublist (h : Bool) (sel : List String) (rows : List Row) :
    (brandStage h sel rows).Sublist rows := by
  unfold brandStage
  split
  · split
    · exact List.filter_sublist rows
    · exact List.Sublist.refl rows
  · exact List.Sublist.refl rows

theorem categoryStage_sublist (h : Bool) (sel : List String) (rows : List Row) :
    (categoryStage h sel rows).Sublist rows := by
  unfold categoryStage
  split
  · split
    · exact List.filter_sublist rows
    · exact List.Sublist.refl rows
  · exact List.Sublist.refl rows

theorem regionStage_sublist (h : Bool) (sel : List String) (rows : List Row) :
    (regionStage h sel rows).Sublist rows := by
  unfold regionStage
  split
  · split
    · exact List.filter_sublist rows
    · exact List.Sublist.refl rows
  · exact List.Sublist.refl rows

theorem channelStage_sublist (h : Bool) (sel : List String) (rows : List Row) :
    (channelStage h sel rows).Sublist rows := by
  unfold channelStage
  split
  · split
    · exact List.filter_sublist rows
    · exact List.Sublist.refl rows
  · exact List.Sublist.refl rows

theorem familyStage_sublist (h : Bool) (sel : Option String) (rows : List Row) :
    (familyStage h sel rows).Sublist rows := by
  unfold familyStage
  split
  · cases sel with
    | some f => exact List.filter_sublist rows
    | none => exact List.Sublist.refl rows
  · exact List.Sublist.refl rows

theorem itemStage_sublist (h : Bool) (sel : Option String) (rows : List Row) :
    (itemStage h sel rows).Sublist rows := by
  unfold itemStage
  split
  · cases sel with
    | some v => exact List.filter_sublist rows
    | none => exact List.Sublist.refl rows
  · exact List.Sublist.refl rows

theorem dateStage_sublist (a : Bool) (s e : ℤ) (rows : List Row) :
    (dateStage a s e rows).Sublist rows := by
  unfold dateStage
  split
  · exact List.filter_sublist rows
  · exact List.Sublist.refl rows

/-- C7: every filter stage of `df_view`, in the fixed source order, returns a
sublist of its input, so the fully filtered view is a sublist of the
unfiltered merged table — every filtered row is a row of the merged table —
and the row count is monotonically non-increasing stage by stage and overall. -/
theorem C7_filter_monotone (fs : FilterState) (merged : List Row) :
    (∀ (h : Bool) (sel : List String) (rows : List Row),
      (brandStage h sel rows).Sublist rows ∧
      (categoryStage h sel rows).Sublist rows ∧
      (regionStage h sel rows).Sublist rows ∧
      (channelStage h sel rows).Sublist rows ∧
      (brandStage h sel rows).length ≤ rows.length ∧
      (categoryStage h sel rows).length ≤ rows.length ∧
      (regionStage h sel rows).length ≤ rows.length ∧
      (channelStage h sel rows).length ≤ rows.length) ∧
    (∀ (h : Bool) (sel : Option String) (rows : List Row),
      (familyStage h sel rows).Sublist rows ∧
      (itemStage h sel rows).Sublist rows ∧
      (familyStage h sel rows).length ≤ rows.length ∧
      (itemStage h sel rows).length ≤ rows.length) ∧
    (∀ (a : Bool) (s e : ℤ) (rows : List Row),
      (dateStage a s e rows).Sublist rows ∧
      (dateStage a s e rows).length ≤ rows.length) ∧
    (df_view fs merged).Sublist merged ∧
    (df_view fs merged).length ≤ merged.length ∧
    (∀ r : Row, r ∈ df_view fs merged → r ∈ merged) := by
  have hview : (df_view fs merged).Sublist merged := by
    unfold df_view
    exact ((((((dateStage_sublist _ _ _ _).trans
      (itemStage_sublist _ _ _)).trans
      (familyStage_sublist _ _ _)).trans
      (channelStage_sublist _ _ _)).trans
      (regionStage_sublist _ _ _)).trans
      (categoryStage_sublist _ _ _)).trans
      (brandStage_sublist _ _ _)
  refine ⟨?_, ?_, ?_, hview, hview.length_le, fun r hr => hview.mem hr⟩
  · intro h sel rows
    exact ⟨brandStage_sublist h sel rows, categoryStage_sublist h sel rows,
      regionStage_sublist h sel rows, channelStage_sublist h sel rows,
      (brandStage_sublist h sel rows).length_le,
      (categoryStage_sublist h sel rows).length_le,
      (regionStage_sublist h sel rows).length_le,
      (channelStage_sublist h sel rows).length_le⟩
  · intro h sel rows
    exact ⟨familyStage_sublist h sel rows, itemStage_sublist h sel rows,
      (familyStage_sublist h sel rows).length_le,
      (itemStage_sublist h sel rows).length_le⟩
  · intro a s e rows
    exact ⟨dateStage_sublist a s e rows, (dateStage_sublist a s e rows).length_le⟩

/-- A row with every attribute missing, and the untouched filter state, used
to witness `C7_filter_monotone`. -/
def rowNone : Row := ⟨none, none, none, none, none, none, none⟩

def noFilters : FilterState :=
  ⟨false, [], false, [], false, [], false, [], false, none, false, none,
   false, 0, 0⟩

/-- Witness for C7: with no filter applied the view keeps its single row, and
that row is a member of the merged table. -/
theorem C7_filter_monotone_witness :
    rowNone ∈ df_view noFilters [rowNone] ∧ rowNone ∈ [rowNone] := by
  have hview : df_view noFilters [rowNone] = [rowNone] := by
    simp [df_view, noFilters, brandStage, categoryStage, regionStage,
      channelStage, familyStage, itemStage, dateStage]
  have hmem : rowNone ∈ df_view noFilters [rowNone] := by
    rw [hview]
    exact List.mem_singleton.mpr rfl
  exact ⟨hmem, (C7_filter_monotone noFilters [rowNone]).2.2.2.2.2 rowNone hmem⟩

/-- C9: an empty multi-select selection is treated as no filter at all — the
brand, category, region and sales-channel stages return their input view
unchanged — and a non-empty selection keeps exactly the rows whose cell value
belongs to the selection. -/
theorem C9_empty_multiselect (rows : List Row) (h : Bool) (sel : List String)
    (r : Row) :
    brandStage h [] rows = rows ∧
    categoryStage h [] rows = rows ∧
    regionStage h [] rows = rows ∧
    channelStage h [] rows = rows ∧
    (r ∈ brandStage true sel rows
      ↔ r ∈ rows ∧ (sel = [] ∨ inSel sel r.brand = true)) ∧
    (r ∈ categoryStage true sel rows
      ↔ r ∈ rows ∧ (sel = [] ∨ inSel sel r.category = true)) ∧
    (r ∈ regionStage true sel rows
      ↔ r ∈ rows ∧ (sel = [] ∨ inSel sel r.region = true)) ∧
    (r ∈ channelStage true sel rows
      ↔ r ∈ rows ∧ (sel = [] ∨ inSel sel r.classCode = true)) := by
  by_cases hs : sel = [] <;>
    cases h <;>
      simp [brandStage, categoryStage, regionStage, channelStage, hs,
        List.mem_filter]

theorem sum_map_div (xs : List ℚ) (c : ℚ) :
    (xs.map (fun x => x / c)).sum = xs.sum / c := by
  induction xs with
  | nil => simp
  | cons a t ih => simp [ih, add_div]

/-- C8: the seasonal index divides each calendar-month average of the metric
by the overall mean of the monthly averages, so whenever all 12 calendar
months carry data and that overall mean is non-zero, the 12 seasonal index
values average to exactly 1. -/
theorem C8_seasonal_index_mean (rows : List (ℕ × ℚ))
    (h12 : (monthsPresent rows).length = 12)
    (hm : overall_mean rows ≠ 0) :
    (seasonalIndex rows).length = 12 ∧
    listMean ((seasonalIndex rows).map Prod.snd) = 1 := by
  have hlen : (seasonal_summary rows).length = 12 := by
    simpa [seasonal_summary] using h12
  have hmap : (seasonalIndex rows).map Prod.snd
      = ((seasonal_summary rows).map Prod.snd).map
          (fun x => x / overall_mean rows) := by
    simp [seasonalIndex, List.map_map, Function.comp_def]
  refine ⟨by simpa [seasonalIndex] using hlen, ?_⟩
  have hllen : ((seasonal_summary rows).map Prod.snd).length = 12 := by
    simp [hlen]
  have hM : overall_mean rows
      = ((seasonal_summary rows).map Prod.snd).sum / 12 := by
    rw [overall_mean, listMean, hllen]
    norm_num
  have hSne : ((seasonal_summary rows).map Prod.snd).sum ≠ 0 := by
    intro h0
    exact hm (by rw [hM, h0, zero_div])
  rw [hmap, listMean, sum_map_div, List.length_map, hllen, hM]
  field_simp

/-- A dataset carrying one observation of value 1 in each of the 12 calendar
months, used to witness `C8_seasonal_index_mean`. -/
def seasonRows : List (ℕ × ℚ) :=
  [(1, 1), (2, 1), (3, 1), (4, 1), (5, 1), (6, 1),
   (7, 1), (8, 1), (9, 1), (10, 1), (11, 1), (12, 1)]

/-- Witness for C8: with one value-1 observation per calendar month, all 12
months are present, the overall mean is non-zero, and the seasonal index
values average to 1. -/
theorem C8_seasonal_index_mean_witness :
    (monthsPresent seasonRows).length = 12 ∧
    overall_mean seasonRows ≠ 0 ∧
    listMean ((seasonalIndex seasonRows).map Prod.snd) = 1 := by
  have hmp : monthsPresent seasonRows = [1, 2, 3, 4, 5, 6, 7, 8, 9, 10, 11, 12] := by
    decide
  have hone : overall_mean seasonRows = 1 := by
    unfold overall_mean seasonal_summary
    rw [hmp]
    norm_num [meanFor, listMean, seasonRows]
  exact ⟨by rw [hmp]; rfl, by rw [hone]; norm_num,
    (C8_seasonal_index_mean seasonRows (by rw [hmp]; rfl)
      (by rw [hone]; norm_num)).2⟩

/-- C2 (amended): per item, the coefficient of variation is the (fillna-0)
sample standard deviation of the monthly sums divided by their mean; it is
infinite — and hence classified Z — exactly when the mean is 0; the standard
deviation itself is always non-negative, so the CV is ≥ 0 whenever the mean
is positive (with a negative mean the CV takes the sign of the mean); the
item is classified X when CV ≤ 0.5, Y when 0.5 < CV ≤ 1, Z when CV > 1. -/
theorem C2_xyz_cv (xs : List ℚ) :
    (cv_metric xs = none ↔ listMean xs = 0) ∧
    (listMean xs ≠ 0 →
      cv_metric xs = some (std_metric xs / ((listMean xs : ℚ) : ℝ))) ∧
    0 ≤ std_metric xs ∧
    (0 < listMean xs → ∀ r : ℝ, cv_metric xs = some r → 0 ≤ r) ∧
    (∀ r : ℝ,
      (r ≤ 1 / 2 → classify_xyz (some r) = "X") ∧
      (1 / 2 < r → r ≤ 1 → classify_xyz (some r) = "Y") ∧
      (1 < r → classify_xyz (some r) = "Z")) ∧
    classify_xyz none = "Z" := by
  have hstd : 0 ≤ std_metric xs := by
    unfold std_metric
    split
    · exact le_refl 0
    · exact Real.sqrt_nonneg _
  refine ⟨?_, ?_, hstd, ?_, ?_, rfl⟩
  · by_cases h : listMean xs = 0
    · simp [cv_metric, h]
    · simp [cv_metric, h]
  · intro h
    rw [cv_metric, if_neg h]
  · intro hpos r hr
    rw [cv_metric, if_neg (ne_of_gt hpos)] at hr
    have hr2 : std_metric xs / ((listMean xs : ℚ) : ℝ) = r := Option.some.inj hr
    rw [← hr2]
    exact div_nonneg hstd (by exact_mod_cast hpos.le)
  · intro r
    refine ⟨fun h1 => ?_, fun h1 h2 => ?_, fun h1 => ?_⟩
    · simp only [classify_xyz]
      rw [if_pos h1]
    · simp only [classify_xyz]
      rw [if_neg (not_le.mpr h1), if_pos h2]
    · simp only [classify_xyz]
      rw [if_neg (not_le.mpr (lt_trans (by norm_num) h1)),
        if_neg (not_le.mpr h1)]

/-- Counterexample for C2 as frozen: for the item whose monthly sums are
`[-1, -3]` the mean is `-2 ≠ 0`, yet the coefficient of variation is
`√2 / (-2) < 0` — it is not the case that every finite CV is ≥ 0 — and the
negative CV even lands the item in class X. -/
theorem C2_xyz_cv_counterexample :
    listMean [-1, -3] ≠ 0 ∧
    cv_metric [-1, -3] = some (Real.sqrt 2 / (-2)) ∧
    Real.sqrt 2 / (-2) < 0 ∧
    classify_xyz (cv_metric [-1, -3]) = "X" := by
  have hm : listMean [(-1 : ℚ), -3] = -2 := by norm_num [listMean]
  have hv : sampleVar [(-1 : ℚ), -3] = 2 := by norm_num [sampleVar, listMean]
  have hstd : std_metric [(-1 : ℚ), -3] = Real.sqrt 2 := by
    rw [std_metric, if_neg (by norm_num), hv]
    norm_num
  have hcv : cv_metric [(-1 : ℚ), -3] = some (Real.sqrt 2 / (-2)) := by
    rw [cv_metric, if_neg (by rw [hm]; norm_num), hstd, hm]
    norm_num
  have hneg : Real.sqrt 2 / (-2) < 0 :=
    div_neg_of_pos_of_neg (Real.sqrt_pos.mpr (by norm_num)) (by norm_num)
  refine ⟨by rw [hm]; norm_num, hcv, hneg, ?_⟩
  rw [hcv]
  simp only [classify_xyz]
  rw [if_pos (hneg.le.trans (by norm_num))]

/-- Witness for C2 at the monthly sums `[2, 2]`: the mean is positive, the
CV is a finite value `0 ≥ 0`, and the item is classified X. -/
theorem C2_xyz_cv_witness :
    cv_metric [2, 2] = some (std_metric [2, 2] / ((listMean [2, 2] : ℚ) : ℝ)) ∧
    cv_metric [2, 2] = some 0 ∧
    (0 : ℝ) ≤ 0 ∧
    classify_xyz (some (0 : ℝ)) = "X" := by
  have hm2 : listMean [(2 : ℚ), 2] = 2 := by norm_num [listMean]
  have hv0 : sampleVar [(2 : ℚ), 2] = 0 := by norm_num [sampleVar, listMean]
  have hs0 : std_metric [(2 : ℚ), 2] = 0 := by
    rw [std_metric, if_neg (by norm_num), hv0]
    simp
  have h0 : cv_metric [(2 : ℚ), 2] = some 0 := by
    rw [cv_metric, if_neg (by rw [hm2]; norm_num), hs0, zero_div]
  refine ⟨(C2_xyz_cv [2, 2]).2.1 (by rw [hm2]; norm_num), h0, ?_, ?_⟩
  · exact (C2_xyz_cv [2, 2]).2.2.2.1 (by rw [hm2]; norm_num) 0 h0
  · exact ((C2_xyz_cv [2, 2]).2.2.2.2.1 0).1 (by norm_num)

/-- C10: for an item observed in exactly one month, the sample standard
deviation is undefined (NaN) and replaced by 0, so with a non-zero single
monthly value the coefficient of variation is 0 and the item is classified
X, the most stable class, despite having no variability evidence. -/
theorem C10_single_month_X (v : ℚ) (hv : v ≠ 0) :
    std_metric [v] = 0 ∧ cv_metric [v] = some 0 ∧
    classify_xyz (cv_metric [v]) = "X" := by
  have hm : listMean [v] = v := by simp [listMean]
  have hs : std_metric [v] = 0 := by rw [std_metric, if_pos (by simp)]
  have hc : cv_metric [v] = some 0 := by
    rw [cv_metric, if_neg (by rw [hm]; exact hv), hs, zero_div]
  refine ⟨hs, hc, ?_⟩
  rw [hc]
  simp only [classify_xyz]
  rw [if_pos (by norm_num)]

/-- Witness for C10 at the single monthly value 5. -/
theorem C10_single_month_X_witness :
    (5 : ℚ) ≠ 0 ∧ classify_xyz (cv_metric [5]) = "X" :=
  ⟨by norm_num, (C10_single_month_X 5 (by norm_num)).2.2⟩

theorem cumFrom_length (acc : ℚ) (xs : List ℚ) :
    (cumFrom acc xs).length = xs.length := by
  induction xs generalizing acc with
  | nil => rfl
  | cons a t ih => simp [cumFrom, ih]

theorem cumFrom_getElem (acc : ℚ) (xs : List ℚ) (i : ℕ)
    (h : i < (cumFrom acc xs).length) :
    (cumFrom acc xs)[i] = acc + (xs.take (i + 1)).sum := by
  induction xs generalizing acc i with
  | nil => simp [cumFrom] at h
  | cons a t ih =>
      cases i with
      | zero => simp [cumFrom]
      | succ n =>
          have hn : n < (cumFrom (acc + a) t).length := by
            simpa [cumFrom] using h
          simp only [cumFrom, List.getElem_cons_succ]
          rw [ih (acc + a) n hn]
          simp [add_assoc]

theorem abcTable_length (rows : List (String × ℚ)) :
    (abcTable rows).length = (abc_source rows).length := by
  simp [abcTable, cumFrom_length]

/-- C1: the ABC stage keeps exactly the grouped items with positive metric
sum, sorted descending by sum; the running percentage of entry `i` is the sum
of the first `i + 1` retained sums divided by the grand total, scaled to 100,
and the label is `classify_abc` of that percentage; `classify_abc` assigns A
for a cumulative percentage ≤ 80, B for one in (80, 95], C above 95; and in
the concrete scenario where one item alone contributes 81% of the total, that
item is labeled "B", not "A". -/
theorem C1_abc_classification (rows : List (String × ℚ)) :
    (∀ p ∈ abc_source rows, 0 < p.2) ∧
    (abc_source rows).Sorted valueGE ∧
    (∀ p ∈ groupSum rows, (p ∈ abc_source rows ↔ 0 < p.2)) ∧
    (∀ i (h : i < (abcTable rows).length),
      ((abcTable rows).get ⟨i, h⟩).2.2.1
        = (((abc_source rows).map Prod.snd).take (i + 1)).sum
            / ((abc_source rows).map Prod.snd).sum * 100 ∧
      ((abcTable rows).get ⟨i, h⟩).2.2.2
        = classify_abc (((abcTable rows).get ⟨i, h⟩).2.2.1)) ∧
    (∀ pct : ℚ,
      (pct ≤ 80 → classify_abc pct = "A") ∧
      (80 < pct → pct ≤ 95 → classify_abc pct = "B") ∧
      (95 < pct → classify_abc pct = "C")) ∧
    (abcTable [("A", 81), ("B", 10), ("C", 9)]).head?
      = some ("A", 81, 81, "B") := by
  refine ⟨?_, ?_, ?_, ?_, ?_, ?_⟩
  · intro p hp
    have hp2 : p ∈ (groupSum rows).filter (fun p => decide (0 < p.2)) :=
      (List.perm_insertionSort valueGE _).subset hp
    exact of_decide_eq_true (List.mem_filter.mp hp2).2
  · exact List.sorted_insertionSort valueGE _
  · intro p hp
    unfold abc_source
    rw [(List.perm_insertionSort valueGE _).mem_iff, List.mem_filter]
    constructor
    · intro hf
      exact of_decide_eq_true hf.2
    · intro hpos
      exact ⟨hp, decide_eq_true hpos⟩
  · intro i h
    have hsrc : i < (abc_source rows).length := by
      rw [abcTable_length] at h
      exact h
    have hcum : i < (cumFrom 0 ((abc_source rows).map Prod.snd)).length := by
      rw [cumFrom_length, List.length_map]
      exact hsrc
    have hcv : (cumFrom 0 ((abc_source rows).map Prod.snd))[i]
        = 0 + (((abc_source rows).map Prod.snd).take (i + 1)).sum :=
      cumFrom_getElem _ _ _ hcum
    have hmain : (abcTable rows).get ⟨i, h⟩
        = ((abc_source rows)[i].1, (abc_source rows)[i].2,
           (cumFrom 0 ((abc_source rows).map Prod.snd))[i]
             / ((abc_source rows).map Prod.snd).sum * 100,
           classify_abc ((cumFrom 0 ((abc_source rows).map Prod.snd))[i]
             / ((abc_source rows).map Prod.snd).sum * 100)) := by
      simp [abcTable, List.get_eq_getElem]
    rw [hmain, hcv, zero_add]
    exact ⟨rfl, rfl⟩
  · intro pct
    refine ⟨fun h1 => ?_, fun h1 h2 => ?_, fun h1 => ?_⟩
    · simp only [classify_abc]
      rw [if_pos h1]
    · simp only [classify_abc]
      rw [if_neg (not_le.mpr h1), if_pos h2]
    · simp only [classify_abc]
      rw [if_neg (not_le.mpr (lt_trans (by norm_num) h1)),
        if_neg (not_le.mpr h1)]
  · have hsrc : abc_source [("A", (81 : ℚ)), ("B", 10), ("C", 9)]
        = [("A", 81), ("B", 10), ("C", 9)] := by
      simp [abc_source, groupSum, sumFor, List.insertionSort, List.orderedInsert,
        valueGE]
      norm_num
    rw [abcTable, hsrc]
    norm_num [cumFrom, classify_abc]

/-- Witness for C1: a singleton grouped item with positive sum is retained,
and the classifier thresholds are exercised at 80, 81 and 96. -/
theorem C1_abc_classification_witness :
    ("A", (1 : ℚ)) ∈ abc_source [("A", 1)] ∧ (0 : ℚ) < 1 ∧
    classify_abc 80 = "A" ∧ classify_abc 81 = "B" ∧ classify_abc 96 = "C" := by
  have hmem : ("A", (1 : ℚ)) ∈ groupSum [("A", 1)] := by
    simp [groupSum, sumFor]
  have h1 : ("A", (1 : ℚ)) ∈ abc_source [("A", 1)] :=
    ((C1_abc_classification [("A", 1)]).2.2.1 _ hmem).mpr (by norm_num)
  refine ⟨h1, (C1_abc_classification [("A", 1)]).1 _ h1, ?_, ?_, ?_⟩
  · exact ((C1_abc_classification []).2.2.2.2.1 80).1 (by norm_num)
  · exact ((C1_abc_classification []).2.2.2.2.1 81).2.1 (by norm_num) (by norm_num)
  · exact ((C1_abc_classification []).2.2.2.2.1 96).2.2 (by norm_num)

end BISales
